import Mathlib

/-!
Verification development for the RGAC_Reminder repository: a Google-Sheets
backed customer service-reminder system.  The definitions below are shallow
embeddings of the repository's JavaScript functions (the sheet/transport I/O
collaborators are abstracted as oracle parameters); the theorems check the
stated properties of the specification against them.
-/

set_option maxHeartbeats 1000000

namespace RGAC

/- ## Definitions: shallow embedding of the repository -/

/-- Proleptic Gregorian leap-year rule, as used by both the JS `Date` object
and luxon for calendar arithmetic. -/
def isLeap (y : Nat) : Bool := y % 4 == 0 && (y % 100 != 0 || y % 400 == 0)

/-- Length of month `m` (1-12) of year `y` in the Gregorian calendar
(0 for out-of-range month numbers, which the embedded code never produces). -/
def daysInMonth (y m : Nat) : Nat :=
  if m = 2 then (if isLeap y then 29 else 28)
  else if m = 4 ∨ m = 6 ∨ m = 9 ∨ m = 11 then 30
  else if 1 ≤ m ∧ m ≤ 12 then 31
  else 0

/-- A timezone-agnostic calendar date (the spec's "canonical calendar date"):
year, month 1-12, day 1-31. -/
structure Date where
  year : Nat
  month : Nat
  day : Nat
deriving DecidableEq, Repr

/-- A date is valid when its month and day are in calendar range (years are
restricted to the common era, which covers every value the scripts handle). -/
def Date.valid (dt : Date) : Prop :=
  1 ≤ dt.year ∧ 1 ≤ dt.month ∧ dt.month ≤ 12 ∧ 1 ≤ dt.day ∧
    dt.day ≤ daysInMonth dt.year dt.month

instance (dt : Date) : Decidable dt.valid := by
  unfold Date.valid; exact inferInstance

/-- Cumulative number of days in the months of year `y` strictly before
month `m`. -/
def daysBeforeMonth (y m : Nat) : Nat :=
  let L : Nat := if isLeap y then 1 else 0
  if m = 1 then 0 else if m = 2 then 31 else if m = 3 then 59 + L
  else if m = 4 then 90 + L else if m = 5 then 120 + L
  else if m = 6 then 151 + L else if m = 7 then 181 + L
  else if m = 8 then 212 + L else if m = 9 then 243 + L
  else if m = 10 then 273 + L else if m = 11 then 304 + L
  else if m = 12 then 334 + L else 0

/-- Number of days in the years `1 .. y-1` of the proleptic Gregorian
calendar. -/
def daysBeforeYear (y : Nat) : Int :=
  let n := y - 1
  ((365 * n + n / 4 + n / 400 : Nat) : Int) - ((n / 100 : Nat) : Int)

/-- Day number of a date (a linear day count; differences of `rataDie` are
exactly the calendar-day distances that the scripts compute with
`DateTime.diff(..., "days")`). -/
def rataDie (dt : Date) : Int :=
  daysBeforeYear dt.year + (daysBeforeMonth dt.year dt.month : Int) + (dt.day : Int)

/-- JS `Date` day-of-month normalization: a day count that overflows the
current month rolls into the following month(s), a day count of 0 denotes the
last day of the previous month.  Fuel-indexed; 4 steps cover every day value
up to 99 that the embedded code can produce. -/
def normDay : Nat → Nat → Nat → Nat → Date
  | 0, y, m, d => ⟨y, m, d⟩
  | fuel + 1, y, m, d =>
    if d = 0 then
      (if m = 1 then ⟨y - 1, 12, 31⟩ else ⟨y, m - 1, daysInMonth y (m - 1)⟩)
    else if d > daysInMonth y m then
      (if m = 12 then normDay fuel (y + 1) 1 (d - daysInMonth y m)
       else normDay fuel y (m + 1) (d - daysInMonth y m))
    else ⟨y, m, d⟩

/-- JS `d.setDate(0)`: move to the last day of the previous month. -/
def jsSetDate0 (dt : Date) : Date :=
  if dt.month = 1 then ⟨dt.year - 1, 12, daysInMonth (dt.year - 1) 12⟩
  else ⟨dt.year, dt.month - 1, daysInMonth dt.year (dt.month - 1)⟩

/-- JS `new Date(y, m-1, d)` (month argument given 1-based here): JS
normalizes an out-of-range month into the year and an overflowing day into
later months. -/
def jsNewDateYMD (y m d : Nat) : Date :=
  let y1 := if m = 0 then y - 1 else y + (m - 1) / 12
  let m1 := if m = 0 then 12 else (m - 1) % 12 + 1
  normDay 4 y1 m1 d

namespace SyncApi

/-- Embeds `add3Months` of `src/api/sync.js` (lines 89-94): `setMonth(+3)`
(month overflow rolls the year; an overflowing day-of-month rolls into the
next month), then `if (d.getDate() !== date.getDate()) d.setDate(0)` clamps
back to the last day of the 3-months-later target month. -/
def add3Months (dt : Date) : Date :=
  let m3 := dt.month + 3
  let y1 := if m3 > 12 then dt.year + 1 else dt.year
  let m1 := if m3 > 12 then m3 - 12 else m3
  let d1 := normDay 4 y1 m1 dt.day
  if d1.day ≠ dt.day then jsSetDate0 d1 else d1

/-- Embeds line 151 of `src/api/sync.js`:
`const nextDate = lastDate ? add3Months(lastDate) : null`. -/
def nextReminderOpt (o : Option Date) : Option Date :=
  match o with
  | some d => some (add3Months d)
  | none => none

end SyncApi

/-- Modelled from the spec: "add exactly 3 calendar months, clamping to the
last day of the resulting month if the original day-of-month does not exist
there".  Used as the comparison point for the source's `add3Months`; it is
also exactly luxon's `plus({months: 3})` used by `src/index.js`. -/
def addMonths3Clamped (dt : Date) : Date :=
  let m3 := dt.month + 3
  let y1 := if m3 > 12 then dt.year + 1 else dt.year
  let m1 := if m3 > 12 then m3 - 12 else m3
  ⟨y1, m1, min dt.day (daysInMonth y1 m1)⟩

/-- The three notification tiers of the reminder state machine, named as in
`src/api/sync.js` (the `emailType` values). -/
inductive EmailType where
  | OVERDUE
  | DUE_TODAY
  | ADVANCE_7DAY
deriving DecidableEq, Repr

/-- Embeds the tier classification of `sendReminders` in `src/api/sync.js`
(lines 609-628): the if/else chain on `daysUntilDue`. -/
def classifyTier (daysUntilDue : Int) : Option EmailType :=
  if daysUntilDue < 0 then some .OVERDUE
  else if daysUntilDue = 0 then some .DUE_TODAY
  else if daysUntilDue ≤ 7 ∧ 0 < daysUntilDue then some .ADVANCE_7DAY
  else none

/- ### Characters and strings: JS / luxon helpers -/

/-- Whitespace characters recognized by JS `String.prototype.trim` (the
common ASCII subset; the exotic Unicode space classes do not occur in sheet
cells). -/
def isWS (c : Char) : Bool := c == ' ' || c == '\t' || c == '\n' || c == '\r'

/-- Numeric value of a decimal digit character. -/
def digitVal (c : Char) : Nat := c.toNat - 48

/-- The decimal digit character for `k < 10`. -/
def digitChar (k : Nat) : Char := Char.ofNat (48 + k)

/-- Value of a digit string read left to right. -/
def valOfDigits (cs : List Char) : Nat :=
  cs.foldl (fun a c => a * 10 + digitVal c) 0

/-- Strip leading and trailing whitespace from a character list. -/
def trimList (cs : List Char) : List Char :=
  ((cs.dropWhile isWS).reverse.dropWhile isWS).reverse

/-- JS `s.trim()`. -/
def jsTrim (s : String) : String := String.mk (trimList s.data)

/-- JS `toUpperCase` on one character (ASCII range; sheet cells only carry
ASCII status keywords). -/
def jsToUpperChar (c : Char) : Char :=
  if 'a' ≤ c ∧ c ≤ 'z' then Char.ofNat (c.toNat - 32) else c

/-- JS `s.toUpperCase()`. -/
def jsToUpper (s : String) : String := String.mk (s.data.map jsToUpperChar)

/-- JS `toLowerCase` on one character (ASCII range). -/
def jsToLowerChar (c : Char) : Char :=
  if 'A' ≤ c ∧ c ≤ 'Z' then Char.ofNat (c.toNat + 32) else c

/-- JS `s.toLowerCase()`. -/
def jsToLower (s : String) : String := String.mk (s.data.map jsToLowerChar)

/-- Calendar validity check applied by luxon after a format match. -/
def validYMD (y m d : Nat) : Prop :=
  1 ≤ m ∧ m ≤ 12 ∧ 1 ≤ d ∧ d ≤ daysInMonth y m

instance (y m d : Nat) : Decidable (validYMD y m d) := by
  unfold validYMD; exact inferInstance

/-- First success of an ordered list of parse attempts (the shape of every
date-parsing cascade in this repository). -/
def firstSome {α : Type _} : List (Option α) → Option α
  | [] => none
  | some x :: _ => some x
  | none :: rest => firstSome rest

/- ### The individual luxon / JS date parsers -/

/-- Models luxon `DateTime.fromISO` restricted to the calendar-date form
`yyyy-MM-dd`, the only ISO shape the sheet cells of this system take (week
dates, ordinal dates and time components are not modelled); also the
recognizer of the explicit `"yyyy-MM-dd"` format entry. -/
def fromISOdate (cs : List Char) : Option Date :=
  match cs with
  | [y1, y2, y3, y4, s1, m1, m2, s2, d1, d2] =>
    if s1 = '-' ∧ s2 = '-' ∧
        ([y1, y2, y3, y4, m1, m2, d1, d2].all Char.isDigit) then
      (if validYMD (valOfDigits [y1, y2, y3, y4]) (valOfDigits [m1, m2])
          (valOfDigits [d1, d2]) then
        some ⟨valOfDigits [y1, y2, y3, y4], valOfDigits [m1, m2],
          valOfDigits [d1, d2]⟩
      else none)
    else none
  | _ => none

/-- Models luxon `DateTime.fromFormat` with pattern `dd<sep>MM<sep>yyyy`
(tokens `dd`/`MM` match exactly two digits, `yyyy` exactly four; the match is
anchored, and the fields are calendar-validated). -/
def fromFormatDayMonthYear (sep : Char) (cs : List Char) : Option Date :=
  match cs with
  | [d1, d2, s1, m1, m2, s2, y1, y2, y3, y4] =>
    if s1 = sep ∧ s2 = sep ∧
        ([d1, d2, m1, m2, y1, y2, y3, y4].all Char.isDigit) then
      (if validYMD (valOfDigits [y1, y2, y3, y4]) (valOfDigits [m1, m2])
          (valOfDigits [d1, d2]) then
        some ⟨valOfDigits [y1, y2, y3, y4], valOfDigits [m1, m2],
          valOfDigits [d1, d2]⟩
      else none)
    else none
  | _ => none

/-- Models luxon `DateTime.fromFormat` with pattern `MM<sep>dd<sep>yyyy`. -/
def fromFormatMonthDayYear (sep : Char) (cs : List Char) : Option Date :=
  match cs with
  | [m1, m2, s1, d1, d2, s2, y1, y2, y3, y4] =>
    if s1 = sep ∧ s2 = sep ∧
        ([m1, m2, d1, d2, y1, y2, y3, y4].all Char.isDigit) then
      (if validYMD (valOfDigits [y1, y2, y3, y4]) (valOfDigits [m1, m2])
          (valOfDigits [d1, d2]) then
        some ⟨valOfDigits [y1, y2, y3, y4], valOfDigits [m1, m2],
          valOfDigits [d1, d2]⟩
      else none)
    else none
  | _ => none

/-- Split a character list at every occurrence of `sep`. -/
def splitChar (sep : Char) : List Char → List (List Char)
  | [] => [[]]
  | c :: cs =>
    if c = sep then [] :: splitChar sep cs
    else
      match splitChar sep cs with
      | [] => [[c]]
      | h :: t => (c :: h) :: t

/-- A numeric field of between `minL` and `maxL` digits (luxon token
matching). -/
def parseNumField (minL maxL : Nat) (cs : List Char) : Option Nat :=
  if minL ≤ cs.length ∧ cs.length ≤ maxL ∧ cs.all Char.isDigit then
    some (valOfDigits cs)
  else none

/-- Models luxon `DateTime.fromFormat` with pattern `d<sep>M<sep>yyyy`
(tokens `d`/`M` match one or two digits). -/
def fromFormatFlexDM (sep : Char) (cs : List Char) : Option Date :=
  match splitChar sep cs with
  | [f1, f2, f3] =>
    match parseNumField 1 2 f1, parseNumField 1 2 f2, parseNumField 4 4 f3 with
    | some dd, some mm, some yy =>
      if validYMD yy mm dd then some ⟨yy, mm, dd⟩ else none
    | _, _, _ => none
  | _ => none

/-- Civil-from-days conversion (Hinnant's algorithm): the date a given number
of days after 1970-01-01.  Used to embed the spreadsheet-serial paths; valid
for the non-negative shifted day numbers those paths produce. -/
def dateOfDays (z : Int) : Date :=
  let zz := (z + 719468).toNat
  let era := zz / 146097
  let doe := zz % 146097
  let yoe := (doe - doe / 1460 + doe / 36524 - doe / 146096) / 365
  let y := yoe + era * 400
  let doy := doe - (365 * yoe + yoe / 4 - yoe / 100)
  let mp := (5 * doy + 2) / 153
  let d := doy - (153 * mp + 2) / 5 + 1
  let m := if mp < 10 then mp + 3 else mp - 9
  if m ≤ 2 then ⟨y + 1, m, d⟩ else ⟨y, m, d⟩

/-- A raw spreadsheet cell value as the date normalizers receive it:
null/undefined, a JS number (restricted to the whole-day serials the sheets
deliver), a JS `Date` object, or text. -/
inductive CellValue where
  | nullVal
  | num (n : Int)
  | dateObj (d : Date)
  | str (s : String)

/-- JS `Number(s)` coercion of a string, restricted to optionally-signed
whole-number literals (a blank or whitespace-only string coerces to 0;
anything else non-numeric gives NaN, i.e. `none`). -/
def jsStringToNumber (s : String) : Option Int :=
  match trimList s.data with
  | [] => some 0
  | c :: cs =>
    if c = '-' then
      (if cs ≠ [] ∧ cs.all Char.isDigit then
        some (-(valOfDigits cs : Int))
      else none)
    else
      (if (c :: cs).all Char.isDigit then
        some ((valOfDigits (c :: cs) : Int))
      else none)

/- ### The date normalizer of src/unnamed/part_003 (isoDateFromAny) -/

/-- The ordered textual parse attempts of `isoDateFromAny`
(`src/unnamed/part_003`, lines 78-94): ISO, `dd-MM-yyyy`, `dd/MM/yyyy`,
`MM/dd/yyyy`, then the two generic fallbacks (luxon `fromRFC2822` and the
engine's `new Date(s)`), which are external library behaviour passed in as
oracle parameters. -/
def textAttempts (rfc2822 gen : String → Option Date) (t : String) :
    List (Option Date) :=
  [fromISOdate t.data,
   fromFormatDayMonthYear '-' t.data,
   fromFormatDayMonthYear '/' t.data,
   fromFormatMonthDayYear '/' t.data,
   rfc2822 t,
   gen t]

/-- Embeds `isoDateFromAny` of `src/unnamed/part_003` (lines 63-97):
null/empty gives null; a numeric value (or numeric-looking string) is a
spreadsheet serial (anchored so that serial 25569 = 1970-01-01); a `Date`
object passes through; otherwise the trimmed text runs through the ordered
parser cascade `textAttempts`. -/
def isoDateFromAny (rfc2822 gen : String → Option Date) :
    CellValue → Option Date
  | .nullVal => none
  | .num n => some (dateOfDays (n - 25569))
  | .dateObj d => some d
  | .str s =>
    if s = "" then none
    else
      match jsStringToNumber s with
      | some n => some (dateOfDays (n - 25569))
      | none =>
        let t := jsTrim s
        if t = "" then none
        else firstSome (textAttempts rfc2822 gen t)

/- ### The parseDate of src/index.js (luxon format cascade) -/

namespace IndexJs

/-- The ordered parse attempts of `parseDate` in `src/index.js`
(lines 166-191), which also appears verbatim in `src/api/sync.js`
(lines 434-456): luxon `fromISO`, then the formats `yyyy-MM-dd`,
`dd/MM/yyyy`, `MM/dd/yyyy`, `dd-MM-yyyy`, `MM-dd-yyyy`, `d/M/yyyy`,
`d-M-yyyy`; an empty string is rejected up front, so no attempt is made. -/
def parseDateAttempts (s : String) : List (Option Date) :=
  if s = "" then []
  else
    [fromISOdate s.data,
     fromISOdate s.data,
     fromFormatDayMonthYear '/' s.data,
     fromFormatMonthDayYear '/' s.data,
     fromFormatDayMonthYear '-' s.data,
     fromFormatMonthDayYear '-' s.data,
     fromFormatFlexDM '/' s.data,
     fromFormatFlexDM '-' s.data]

/-- Embeds `parseDate` of `src/index.js` (lines 166-191): the first
successful attempt wins; `null` when all fail. -/
def parseDate (s : String) : Option Date := firstSome (parseDateAttempts s)

end IndexJs

/- ### The parseDate of src/api/sync.js (serial range + regex) -/

namespace SyncApi

/-- One- or two-digit field of the regex
`^(\d{1,2})[-\/](\d{1,2})[-\/](\d{4})$` (greedy, which agrees with the
backtracking regex on all inputs because a third consecutive digit makes the
following separator test fail either way). -/
def takeField12 : List Char → Option (Nat × List Char)
  | [] => none
  | c :: rest =>
    if c.isDigit then
      match rest with
      | c2 :: rest2 =>
        if c2.isDigit then some (digitVal c * 10 + digitVal c2, rest2)
        else some (digitVal c, rest)
      | [] => some (digitVal c, [])
    else none

/-- The regex branch of `parseDate` in `src/api/sync.js` (lines 73-79):
match `^(\d{1,2})[-\/](\d{1,2})[-\/](\d{4})$`; a first field above 12 is a
day (day-first), a second field above 12 makes the first the month, and the
ambiguous case defaults to day-first; the matched fields build a JS `Date`
with overflow normalization. -/
def regexDMY (s : String) : Option Date :=
  match takeField12 s.data with
  | none => none
  | some (f1, r1) =>
    match r1 with
    | s1 :: r2 =>
      if s1 = '-' ∨ s1 = '/' then
        match takeField12 r2 with
        | none => none
        | some (f2, r3) =>
          match r3 with
          | s2 :: r4 =>
            if s2 = '-' ∨ s2 = '/' then
              match r4 with
              | [a, b, c, d] =>
                if [a, b, c, d].all Char.isDigit then
                  let yyyy := valOfDigits [a, b, c, d]
                  if f1 > 12 then some (jsNewDateYMD yyyy f2 f1)
                  else if f2 > 12 then some (jsNewDateYMD yyyy f1 f2)
                  else some (jsNewDateYMD yyyy f2 f1)
                else none
              | _ => none
            else none
          | [] => none
      else none
    | [] => none

/-- The serial-range step of `parseDate` in `src/api/sync.js` (line 70):
`Number(val)` in the open interval (40000, 60000) is a spreadsheet serial. -/
def serialInRange (s : String) : Option Date :=
  match jsStringToNumber s with
  | some n => if 40000 < n ∧ n < 60000 then some (dateOfDays (n - 25569)) else none
  | none => none

/-- The attempts `parseDate` of `src/api/sync.js` (lines 63-82) makes for
each input shape: a falsy value (null, 0, empty string) or a non-number
non-string object short-circuits to null with no attempt; a non-zero number
is always converted as a serial; a non-empty string tries the serial-range
step, then the engine's generic `new Date(val)` (oracle `gen`), then the
explicit `d-m-y` regex. -/
def parseDateAttempts (gen : String → Option Date) :
    CellValue → List (Option Date)
  | .nullVal => []
  | .dateObj _ => []
  | .num n => if n = 0 then [] else [some (dateOfDays (n - 25569))]
  | .str s => if s = "" then [] else [serialInRange s, gen s, regexDMY s]

/-- Embeds `parseDate` of `src/api/sync.js` (lines 63-82): the first
successful attempt wins; `null` when all fail. -/
def parseDate (gen : String → Option Date) (v : CellValue) : Option Date :=
  firstSome (parseDateAttempts gen v)

end SyncApi

/-- A two-digit day field, a separator, a two-digit month field, a
separator, and a four-digit year: the ambiguous `dd<sep>mm<sep>yyyy` cell
text. -/
def renderDMY (sep : Char) (d m y : Nat) : List Char :=
  [digitChar (d / 10), digitChar (d % 10), sep,
   digitChar (m / 10), digitChar (m % 10), sep,
   digitChar (y / 1000), digitChar (y / 100 % 10),
   digitChar (y / 10 % 10), digitChar (y % 10)]

/- ### Customer records and the record reconciler -/

/-- luxon `toISODate()`: `yyyy-MM-dd` rendering (exact for the four-digit
years these scripts handle). -/
def isoString (dt : Date) : String :=
  String.mk [digitChar (dt.year / 1000), digitChar (dt.year / 100 % 10),
    digitChar (dt.year / 10 % 10), digitChar (dt.year % 10), '-',
    digitChar (dt.month / 10), digitChar (dt.month % 10), '-',
    digitChar (dt.day / 10), digitChar (dt.day % 10)]

/-- A reconciled customer record: the fields of the `REQUIRED_COLUMNS` row
object built by `processCustomers` (`src/api/sync.js` lines 243-255 name
them "Name", "Veh. Reg. No.", "Email Add.", "Phone Number", "Last Visit",
"Next Reminder Date", "Manual Contact", "Status", "Last Email Sent",
"Email Type", "Subscription"). -/
structure Customer where
  name : String
  vehReg : String
  emailAdd : String
  phoneNumber : String
  lastVisit : String
  nextReminderDate : String
  manualContact : String
  status : String
  lastEmailSent : String
  emailType : String
  subscription : String
deriving DecidableEq, Repr

/-- Embeds the per-row record construction of `processCustomers`
(`src/index.js` lines 133-164): every cell is read as
`(row[i] || "").trim()`; `Next Reminder Date` is recomputed as the parsed
last visit plus 3 calendar months (luxon's clamped month addition) rendered
as an ISO date, or blank when the last visit does not parse; and
`Manual Contact` is "MISSING CONTACT" exactly when the email and phone
cells are both blank. -/
def processCustomerRow (name veh email phone lastVisit status
    lastEmailSent emailType subscription : String) : Customer :=
  let nr :=
    match IndexJs.parseDate (jsTrim lastVisit) with
    | some d => isoString (addMonths3Clamped d)
    | none => ""
  { name := jsTrim name
    vehReg := jsTrim veh
    emailAdd := jsTrim email
    phoneNumber := jsTrim phone
    lastVisit := jsTrim lastVisit
    nextReminderDate := nr
    manualContact :=
      if jsTrim email = "" ∧ jsTrim phone = "" then "MISSING CONTACT" else ""
    status := jsTrim status
    lastEmailSent := jsTrim lastEmailSent
    emailType := jsTrim emailType
    subscription := jsTrim subscription }

/- ### The schema resolver's column append -/

/-- Embeds `ensureColumns` of `src/index.js` (lines 112-122): copy the
header, then append, in order, every required column not yet present,
flagging whether anything changed. -/
def ensureColumns (header required : List String) : List String × Bool :=
  required.foldl
    (fun acc col => if col ∈ acc.1 then acc else (acc.1 ++ [col], true))
    (header, false)

/- ### The sorted presentation projection -/

/-- Sort key of a Reminders-sheet row: the lower-cased name cell
(`String(a[0]).toLowerCase()`; a missing cell reads as blank). -/
def rowKey (r : List String) : String := jsToLower (r.headD "")

/-- The comparator's "less or equal": row `a` sorts no later than row `b`
when its lower-cased name is lexicographically no greater
(`localeCompare` modelled as code-point comparison, exact for the ASCII
names these sheets hold). -/
def rowLe (a b : List String) : Prop := rowKey a ≤ rowKey b

instance : DecidableRel rowLe := fun a b =>
  inferInstanceAs (Decidable (rowKey a ≤ rowKey b))

instance : IsTotal (List String) rowLe :=
  ⟨fun a b => le_total (rowKey a) (rowKey b)⟩

instance : IsTrans (List String) rowLe :=
  ⟨fun _ _ _ hab hbc => le_trans hab hbc⟩

/-- Embeds the Reminders-sheet sort of `src/unnamed/part_000` (lines
156-158, the same statement as `src/unnamed/part_003` line 220):
`rows.sort((a, b) => String(a[0]).toLowerCase().localeCompare(String(b[0]).toLowerCase()))`.
ECMA-262 requires `Array.prototype.sort` to be stable, and a stable sort by
a total preorder has a unique result, so it is embedded as insertion sort
by the comparator's "less or equal". -/
def sortReminders (rows : List (List String)) : List (List String) :=
  List.insertionSort rowLe rows

/- ### The reminder state machine -/

/-- The string stored in the "Email Type" column for each tier
(`emailType` in `src/api/sync.js`). -/
def emailTypeStr : EmailType → String
  | .OVERDUE => "OVERDUE"
  | .DUE_TODAY => "DUE_TODAY"
  | .ADVANCE_7DAY => "ADVANCE_7DAY"

/-- The run summary and mutated customer list that a send loop produces,
plus a trace of every send attempt as (customer position, tier). -/
structure RunResult where
  sent : Nat
  failed : Nat
  failures : List String
  updated : List Customer
  attempts : List (Nat × EmailType)

/-- The shared shape of both `sendReminders` loops: walk the customers in
order; where the decision function picks a tier, attempt one send, whose
outcome the transport oracle gives (`sendEmail` returning vs throwing);
success applies the per-customer update, failure appends a failure entry.
Cross-customer state is only the counters, so the loop is embedded as a
recursion carrying the current position. -/
def runLoop (dec : Customer → Option EmailType)
    (upd : Customer → EmailType → Customer) (msg : Customer → String)
    (oracle : Nat → Bool) : Nat → List Customer → RunResult
  | _, [] => ⟨0, 0, [], [], []⟩
  | i, c :: rest =>
    let r := runLoop dec upd msg oracle (i + 1) rest
    match dec c with
    | none => ⟨r.sent, r.failed, r.failures, c :: r.updated, r.attempts⟩
    | some t =>
      if oracle i then
        ⟨r.sent + 1, r.failed, r.failures, upd c t :: r.updated,
          (i, t) :: r.attempts⟩
      else
        ⟨r.sent, r.failed + 1, msg c :: r.failures, c :: r.updated,
          (i, t) :: r.attempts⟩

namespace SyncApi

/-- The tracking update of a successful send (`src/api/sync.js` lines
643-645): `customer["Last Email Sent"] = todayStr` and
`customer["Email Type"] = emailType`. -/
def applyTracking (today : Date) (c : Customer) (t : EmailType) : Customer :=
  { c with lastEmailSent := isoString today, emailType := emailTypeStr t }

/-- Embeds the per-customer decision chain of `sendReminders` in
`src/api/sync.js` (lines 543-635): the subscription opt-out skip, the
missing-contact skip, the empty-email skip, the missing or unparseable
reminder-date skips, the day-difference tier classification, and the
same-day same-tier de-duplication guard
(`lastEmailSent === todayStr && lastEmailType === emailType`).  The result
is the tier for which a send is attempted, `none` when the customer is
skipped.  The `parseDate` called here is the file's own copy (lines
434-456), byte-identical to `IndexJs.parseDate`. -/
def reminderDecision (today : Date) (c : Customer) : Option EmailType :=
  if jsToUpper (jsTrim c.subscription) = "NOT SUBSCRIBED" ∨
      jsToUpper (jsTrim c.subscription) = "UNSUBSCRIBED" then none
  else if c.manualContact = "MISSING CONTACT" then none
  else if c.emailAdd = "" then none
  else if c.nextReminderDate = "" then none
  else
    match IndexJs.parseDate c.nextReminderDate with
    | none => none
    | some nrd =>
      match classifyTier (rataDie nrd - rataDie today) with
      | none => none
      | some t =>
        if c.lastEmailSent = isoString today ∧ c.emailType = emailTypeStr t
        then none
        else some t

/-- The failure entry `${name} (${to}): ${e.message}` (the exception text
comes from the transport and is not modelled). -/
def failureMsg (c : Customer) : String := c.name ++ " (" ++ c.emailAdd ++ ")"

/-- Embeds `sendReminders` of `src/api/sync.js` (lines 522-675): one pass
over the customers in order; `updatedCustomers` is the mutated array the
function returns alongside the counters. -/
def sendReminders (today : Date) (oracle : Nat → Bool)
    (customers : List Customer) : RunResult :=
  runLoop (reminderDecision today) (applyTracking today) failureMsg oracle 0
    customers

end SyncApi

namespace IndexJs

/-- Embeds the per-customer decision of `sendReminders` in `src/index.js`
(lines 263-340): skip on missing contact or empty email; OVERDUE when the
status reads "NOT SERVICED" and the ISO-parsed reminder date lies before
today; DUE_TODAY when the reminder text equals today's ISO date and the
status reads "NOT SERVICED"; otherwise skip. -/
def reminderDecision (today : Date) (c : Customer) : Option EmailType :=
  if c.manualContact = "MISSING CONTACT" then none
  else if c.emailAdd = "" then none
  else
    let overdue : Bool :=
      if c.nextReminderDate = "" then false
      else
        match fromISOdate c.nextReminderDate.data with
        | some nrd => (jsToUpper c.status == "NOT SERVICED") &&
            decide (rataDie nrd < rataDie today)
        | none => false
    if overdue then some .OVERDUE
    else if c.nextReminderDate = isoString today ∧
        jsToUpper c.status = "NOT SERVICED" then some .DUE_TODAY
    else none

/-- The failure entry `To:${to} ${e.message}` (exception text not
modelled). -/
def failureMsg (c : Customer) : String := "To:" ++ c.emailAdd

/-- Embeds `sendReminders` of `src/index.js` (lines 263-340); this variant
updates no tracking fields on success. -/
def sendReminders (today : Date) (oracle : Nat → Bool)
    (customers : List Customer) : RunResult :=
  runLoop (reminderDecision today) (fun c _ => c) failureMsg oracle 0
    customers

end IndexJs

/- ## Theorems -/

/- ### Calendar arithmetic lemmas -/

theorem daysInMonth_le (y m : Nat) : daysInMonth y m ≤ 31 := by
  unfold daysInMonth
  split_ifs <;> omega

theorem le_daysInMonth (y m : Nat) (h1 : 1 ≤ m) (hm : m ≤ 12) :
    28 ≤ daysInMonth y m := by
  unfold daysInMonth
  split_ifs <;> omega

theorem daysBeforeYear_succ (y : Nat) (hy : 1 ≤ y) :
    daysBeforeYear (y + 1) =
      daysBeforeYear y + 365 + (if isLeap y then 1 else 0) := by
  obtain ⟨n, rfl⟩ : ∃ n, y = n + 1 := ⟨y - 1, by omega⟩
  have hiff : isLeap (n + 1) = true ↔
      ((n + 1) % 4 = 0 ∧ ((n + 1) % 100 ≠ 0 ∨ (n + 1) % 400 = 0)) := by
    simp [isLeap]
  unfold daysBeforeYear
  simp only [Nat.add_sub_cancel]
  rw [Nat.succ_div n 4, Nat.succ_div n 100, Nat.succ_div n 400]
  split_ifs <;> simp only [hiff] at * <;> push_cast <;> omega

theorem normDay_succ_base (fuel y m d : Nat) (hd0 : d ≠ 0)
    (hle : d ≤ daysInMonth y m) : normDay (fuel + 1) y m d = ⟨y, m, d⟩ := by
  have e : normDay (fuel + 1) y m d =
      (if d = 0 then
        (if m = 1 then ⟨y - 1, 12, 31⟩ else ⟨y, m - 1, daysInMonth y (m - 1)⟩)
      else if d > daysInMonth y m then
        (if m = 12 then normDay fuel (y + 1) 1 (d - daysInMonth y m)
         else normDay fuel y (m + 1) (d - daysInMonth y m))
      else ⟨y, m, d⟩) := rfl
  rw [e, if_neg hd0, if_neg (by omega)]

theorem normDay_over4 (y m d : Nat) (hm1 : 1 ≤ m) (hm : m ≤ 11)
    (hgt : daysInMonth y m < d) (hd31 : d ≤ 31) :
    normDay 4 y m d = ⟨y, m + 1, d - daysInMonth y m⟩ := by
  have h28 : 28 ≤ daysInMonth y m := le_daysInMonth y m hm1 (by omega)
  have h28' : 28 ≤ daysInMonth y (m + 1) :=
    le_daysInMonth y (m + 1) (by omega) (by omega)
  have step : normDay 3 y (m + 1) (d - daysInMonth y m) =
      ⟨y, m + 1, d - daysInMonth y m⟩ :=
    normDay_succ_base 2 y (m + 1) _ (by omega) (by omega)
  have e : normDay 4 y m d =
      (if d = 0 then
        (if m = 1 then ⟨y - 1, 12, 31⟩ else ⟨y, m - 1, daysInMonth y (m - 1)⟩)
      else if d > daysInMonth y m then
        (if m = 12 then normDay 3 (y + 1) 1 (d - daysInMonth y m)
         else normDay 3 y (m + 1) (d - daysInMonth y m))
      else ⟨y, m, d⟩) := rfl
  rw [e, if_neg (show ¬ d = 0 by omega), if_pos hgt,
    if_neg (show ¬ m = 12 by omega)]
  exact step

theorem add3_core (y2 m2 d : Nat) (hm1 : 1 ≤ m2) (hm12 : m2 ≤ 12)
    (hd1 : 1 ≤ d) (hd31 : d ≤ 31) :
    (if (normDay 4 y2 m2 d).day ≠ d then jsSetDate0 (normDay 4 y2 m2 d)
     else normDay 4 y2 m2 d) = ⟨y2, m2, min d (daysInMonth y2 m2)⟩ := by
  by_cases hov : d ≤ daysInMonth y2 m2
  · have e : normDay 4 y2 m2 d = ⟨y2, m2, d⟩ :=
      normDay_succ_base 3 y2 m2 d (by omega) hov
    rw [e]
    rw [if_neg (show ¬ ((Date.mk y2 m2 d).day ≠ d) by simp)]
    rw [min_eq_left hov]
  · have h12 : daysInMonth y2 12 = 31 := by unfold daysInMonth; norm_num
    have hne : m2 ≠ 12 := by
      intro h; rw [h, h12] at hov; omega
    have h28 : 28 ≤ daysInMonth y2 m2 := le_daysInMonth y2 m2 hm1 hm12
    have e : normDay 4 y2 m2 d = ⟨y2, m2 + 1, d - daysInMonth y2 m2⟩ :=
      normDay_over4 y2 m2 d hm1 (by omega) (by omega) hd31
    rw [e]
    rw [if_pos (show (Date.mk y2 (m2 + 1) (d - daysInMonth y2 m2)).day ≠ d by
      simp only; omega)]
    unfold jsSetDate0
    simp only
    rw [if_neg (show ¬ (m2 + 1 = 1) by omega)]
    simp only [Nat.add_sub_cancel]
    rw [min_eq_right (by omega)]

theorem rataDie_add3 (y m d : Nat) (hy : 1 ≤ y) (hm1 : 1 ≤ m)
    (hm12 : m ≤ 12) :
    89 ≤ rataDie ⟨(if m + 3 > 12 then y + 1 else y),
        (if m + 3 > 12 then m + 3 - 12 else m + 3), d⟩ - rataDie ⟨y, m, d⟩ ∧
    rataDie ⟨(if m + 3 > 12 then y + 1 else y),
        (if m + 3 > 12 then m + 3 - 12 else m + 3), d⟩ - rataDie ⟨y, m, d⟩
      ≤ 92 := by
  have hsucc := daysBeforeYear_succ y hy
  interval_cases m <;>
    cases hL : isLeap y <;>
    cases hL1 : isLeap (y + 1) <;>
    simp [hL, hL1] at hsucc <;>
    simp [rataDie, daysBeforeMonth, hL, hL1] <;>
    omega

/- ### Claim theorems C2 and C3 -/

/-- Claim C2: the reminder state machine's classifier assigns no tier for
`daysUntilDue > 7`, `ADVANCE_7DAY` for `0 < daysUntilDue ≤ 7`, `DUE_TODAY`
for `daysUntilDue = 0` and `OVERDUE` for `daysUntilDue < 0`; with
`today = 2024-06-10`, the due dates `2024-06-15`, `2024-06-10` and
`2024-06-05` yield the advance, due-today and overdue tiers respectively. -/
theorem claim_c2 :
    (∀ d : Int, classifyTier d = none ↔ 7 < d) ∧
    (∀ d : Int, classifyTier d = some .ADVANCE_7DAY ↔ 0 < d ∧ d ≤ 7) ∧
    (∀ d : Int, classifyTier d = some .DUE_TODAY ↔ d = 0) ∧
    (∀ d : Int, classifyTier d = some .OVERDUE ↔ d < 0) ∧
    classifyTier (rataDie ⟨2024, 6, 15⟩ - rataDie ⟨2024, 6, 10⟩) =
      some .ADVANCE_7DAY ∧
    classifyTier (rataDie ⟨2024, 6, 10⟩ - rataDie ⟨2024, 6, 10⟩) =
      some .DUE_TODAY ∧
    classifyTier (rataDie ⟨2024, 6, 5⟩ - rataDie ⟨2024, 6, 10⟩) =
      some .OVERDUE := by
  refine ⟨?_, ?_, ?_, ?_, by decide, by decide, by decide⟩ <;>
    intro d <;> unfold classifyTier <;> split_ifs <;> simp_all <;> omega

/-- Claim C3: for every valid date, `add3Months` returns the date exactly
3 calendar months later, clamped to the last day of the target month when the
source day-of-month does not exist there; the derived reminder date is `null`
iff the last-service date is `null`; in every non-clamped case the distance
to the due date is between 89 and 92 days; and `2024-01-31` maps to
`2024-04-30`. -/
theorem claim_c3 :
    (∀ dt : Date, dt.valid → SyncApi.add3Months dt = addMonths3Clamped dt) ∧
    (∀ o : Option Date, SyncApi.nextReminderOpt o = none ↔ o = none) ∧
    (∀ dt : Date, dt.valid → (SyncApi.add3Months dt).day = dt.day →
      89 ≤ rataDie (SyncApi.add3Months dt) - rataDie dt ∧
        rataDie (SyncApi.add3Months dt) - rataDie dt ≤ 92) ∧
    SyncApi.add3Months ⟨2024, 1, 31⟩ = ⟨2024, 4, 30⟩ := by
  have key : ∀ dt : Date, dt.valid →
      SyncApi.add3Months dt = addMonths3Clamped dt := by
    rintro ⟨y, m, d⟩ hval
    obtain ⟨hy, hm1, hm12, hd1, hd2⟩ :
        1 ≤ y ∧ 1 ≤ m ∧ m ≤ 12 ∧ 1 ≤ d ∧ d ≤ daysInMonth y m := hval
    have hd31 : d ≤ 31 := hd2.trans (daysInMonth_le y m)
    unfold SyncApi.add3Months addMonths3Clamped
    dsimp only
    by_cases hc : m + 3 > 12
    · simp only [if_pos hc]
      exact add3_core (y + 1) (m + 3 - 12) d (by omega) (by omega) hd1 hd31
    · simp only [if_neg hc]
      exact add3_core y (m + 3) d (by omega) (by omega) hd1 hd31
  refine ⟨key, ?_, ?_, by decide⟩
  · rintro (_ | o) <;> simp [SyncApi.nextReminderOpt]
  · rintro ⟨y, m, d⟩ hval hday
    have hval' : 1 ≤ y ∧ 1 ≤ m ∧ m ≤ 12 ∧ 1 ≤ d ∧ d ≤ daysInMonth y m := hval
    obtain ⟨hy, hm1, hm12, hd1, hd2⟩ := hval'
    rw [key _ hval] at hday ⊢
    unfold addMonths3Clamped at hday ⊢
    dsimp only at hday ⊢
    rw [hday]
    exact rataDie_add3 y m d hy hm1 hm12

/-- Witness for claim C3's theorem at the concrete date 2024-05-15 (a
non-clamped case: the due date is 2024-08-15, 92 days later). -/
theorem claim_c3_witness :
    SyncApi.add3Months ⟨2024, 5, 15⟩ = addMonths3Clamped ⟨2024, 5, 15⟩ ∧
    89 ≤ rataDie (SyncApi.add3Months ⟨2024, 5, 15⟩) - rataDie ⟨2024, 5, 15⟩ ∧
    rataDie (SyncApi.add3Months ⟨2024, 5, 15⟩) - rataDie ⟨2024, 5, 15⟩ ≤ 92 := by
  refine ⟨claim_c3.1 _ (by decide),
    (claim_c3.2.2.1 _ (by decide) (by decide)).1,
    (claim_c3.2.2.1 _ (by decide) (by decide)).2⟩

theorem firstSome_eq_none {α : Type _} (l : List (Option α)) :
    firstSome l = none ↔ ∀ r ∈ l, r = none := by
  induction l with
  | nil => simp [firstSome]
  | cons h t ih => cases h <;> simp [firstSome, ih]

/- ### Digit-rendering lemmas for the ambiguity theorem -/

theorem digitChar_isDigit : ∀ k, k < 10 → (digitChar k).isDigit = true := by
  decide

theorem digitVal_digitChar : ∀ k, k < 10 → digitVal (digitChar k) = k := by
  decide

theorem digitChar_ne_dash : ∀ k, k < 10 → ¬(digitChar k = '-') := by decide

theorem digitChar_ne_slash : ∀ k, k < 10 → ¬(digitChar k = '/') := by decide

theorem digitChar_not_ws : ∀ k, k < 10 → isWS (digitChar k) = false := by
  decide

theorem dash_not_digit : ('-' : Char).isDigit = false := rfl

theorem slash_not_digit : ('/' : Char).isDigit = false := rfl

theorem dash_not_ws : isWS '-' = false := rfl

theorem slash_not_ws : isWS '/' = false := rfl

theorem dropWhile_all_false {p : Char → Bool} :
    ∀ {cs : List Char}, (∀ c ∈ cs, p c = false) → cs.dropWhile p = cs := by
  intro cs h
  induction cs with
  | nil => rfl
  | cons c cs ih =>
    rw [List.dropWhile_cons, h c (List.mem_cons_self _ _)]
    simp

theorem trimList_eq_self {cs : List Char} (h : ∀ c ∈ cs, isWS c = false) :
    trimList cs = cs := by
  unfold trimList
  rw [dropWhile_all_false h,
    dropWhile_all_false (fun c hc => h c (List.mem_reverse.mp hc)),
    List.reverse_reverse]

theorem renderDMY_not_ws (sep : Char) (d m y : Nat)
    (hsep : sep = '-' ∨ sep = '/') (hd : d < 100) (hm : m < 100)
    (hy : y < 10000) : ∀ c ∈ renderDMY sep d m y, isWS c = false := by
  intro c hc
  simp only [renderDMY, List.mem_cons, List.not_mem_nil, or_false] at hc
  rcases hc with rfl | rfl | rfl | rfl | rfl | rfl | rfl | rfl | rfl | rfl
  · exact digitChar_not_ws _ (by omega)
  · exact digitChar_not_ws _ (by omega)
  · rcases hsep with rfl | rfl
    · exact dash_not_ws
    · exact slash_not_ws
  · exact digitChar_not_ws _ (by omega)
  · exact digitChar_not_ws _ (by omega)
  · rcases hsep with rfl | rfl
    · exact dash_not_ws
    · exact slash_not_ws
  · exact digitChar_not_ws _ (by omega)
  · exact digitChar_not_ws _ (by omega)
  · exact digitChar_not_ws _ (by omega)
  · exact digitChar_not_ws _ (by omega)

theorem valOfDigits_two (d : Nat) (hd : d < 100) :
    valOfDigits [digitChar (d / 10), digitChar (d % 10)] = d := by
  simp only [valOfDigits, List.foldl_cons, List.foldl_nil,
    digitVal_digitChar _ (show d / 10 < 10 by omega),
    digitVal_digitChar _ (show d % 10 < 10 by omega)]
  omega

theorem valOfDigits_four (y : Nat) (hy : y < 10000) :
    valOfDigits [digitChar (y / 1000), digitChar (y / 100 % 10),
      digitChar (y / 10 % 10), digitChar (y % 10)] = y := by
  simp only [valOfDigits, List.foldl_cons, List.foldl_nil,
    digitVal_digitChar _ (show y / 1000 < 10 by omega),
    digitVal_digitChar _ (show y / 100 % 10 < 10 by omega),
    digitVal_digitChar _ (show y / 10 % 10 < 10 by omega),
    digitVal_digitChar _ (show y % 10 < 10 by omega)]
  omega

theorem renderDMY_not_numeric (sep : Char) (d m y : Nat)
    (hsep : sep = '-' ∨ sep = '/') (hd : d < 100) (hm : m < 100)
    (hy : y < 10000) :
    jsStringToNumber (String.mk (renderDMY sep d m y)) = none := by
  unfold jsStringToNumber
  rw [show (String.mk (renderDMY sep d m y)).data = renderDMY sep d m y
    from rfl]
  rw [trimList_eq_self (renderDMY_not_ws sep d m y hsep hd hm hy)]
  have hallf : (renderDMY sep d m y).all Char.isDigit = false := by
    rcases hsep with rfl | rfl <;>
      simp [renderDMY, List.all_cons, dash_not_digit, slash_not_digit]
  simp only [renderDMY] at hallf ⊢
  rw [if_neg (digitChar_ne_dash _ (show d / 10 < 10 by omega))]
  simp only [List.all_cons] at hallf ⊢
  rw [if_neg]
  intro hcon
  rw [hcon] at hallf
  exact absurd hallf (by simp)

theorem fromISOdate_renderDMY (sep : Char) (d m y : Nat) (_hm : m < 100) :
    fromISOdate (renderDMY sep d m y) = none := by
  simp only [renderDMY, fromISOdate]
  rw [if_neg]
  intro hcon
  exact digitChar_ne_dash (m % 10) (by omega) hcon.1

theorem fromFormatDMY_renderDMY (sep : Char) (d m y : Nat)
    (hd1 : 1 ≤ d) (hd12 : d ≤ 12) (hm1 : 1 ≤ m) (hm12 : m ≤ 12)
    (hy1 : 1000 ≤ y) (hy2 : y ≤ 9999) :
    fromFormatDayMonthYear sep (renderDMY sep d m y) = some ⟨y, m, d⟩ := by
  have hall : ([digitChar (d / 10), digitChar (d % 10), digitChar (m / 10),
      digitChar (m % 10), digitChar (y / 1000), digitChar (y / 100 % 10),
      digitChar (y / 10 % 10), digitChar (y % 10)].all Char.isDigit) = true := by
    simp [List.all_cons,
      digitChar_isDigit _ (show d / 10 < 10 by omega),
      digitChar_isDigit _ (show d % 10 < 10 by omega),
      digitChar_isDigit _ (show m / 10 < 10 by omega),
      digitChar_isDigit _ (show m % 10 < 10 by omega),
      digitChar_isDigit _ (show y / 1000 < 10 by omega),
      digitChar_isDigit _ (show y / 100 % 10 < 10 by omega),
      digitChar_isDigit _ (show y / 10 % 10 < 10 by omega),
      digitChar_isDigit _ (show y % 10 < 10 by omega)]
  simp only [renderDMY, fromFormatDayMonthYear]
  rw [if_pos ⟨by trivial, by trivial, hall⟩]
  rw [valOfDigits_two d (by omega), valOfDigits_two m (by omega),
    valOfDigits_four y (by omega)]
  rw [if_pos ⟨hm1, hm12, hd1,
    le_trans (show d ≤ 28 by omega) (le_daysInMonth y m hm1 hm12)⟩]

/- ### Claim theorems C4 and C5 -/

/-- Claim C4: `isoDateFromAny` tries its explicit textual patterns in the
order `dd-MM-yyyy`, `dd/MM/yyyy`, `MM/dd/yyyy`, before the generic fallback
parsers (first conjunct: on non-numeric non-empty text the function is the
first success of exactly that attempt list); and every ambiguous
`dd<sep>mm<sep>yyyy` text with both fields at most 12, with either
separator, is resolved day-first — the first field becomes the day —
whatever the fallback parsers would say. -/
theorem claim_c4 :
    (∀ (rfc2822 gen : String → Option Date) (s : String),
      jsStringToNumber s = none → s ≠ "" → jsTrim s ≠ "" →
      isoDateFromAny rfc2822 gen (.str s) =
        firstSome (textAttempts rfc2822 gen (jsTrim s))) ∧
    (∀ (rfc2822 gen : String → Option Date) (sep : Char) (d m y : Nat),
      sep = '-' ∨ sep = '/' → 1 ≤ d → d ≤ 12 → 1 ≤ m → m ≤ 12 →
      1000 ≤ y → y ≤ 9999 →
      isoDateFromAny rfc2822 gen (.str (String.mk (renderDMY sep d m y))) =
        some ⟨y, m, d⟩) := by
  constructor
  · intro rfc2822 gen s hnum hs0 ht0
    simp only [isoDateFromAny, if_neg hs0, hnum, if_neg ht0]
  · intro rfc2822 gen sep d m y hsep hd1 hd12 hm1 hm12 hy1 hy2
    have hnum := renderDMY_not_numeric sep d m y hsep (by omega) (by omega)
      (by omega)
    have hne : String.mk (renderDMY sep d m y) ≠ "" := by
      simp [String.ext_iff, renderDMY]
    have htrim : jsTrim (String.mk (renderDMY sep d m y)) =
        String.mk (renderDMY sep d m y) := by
      unfold jsTrim
      rw [show (String.mk (renderDMY sep d m y)).data = renderDMY sep d m y
        from rfl]
      rw [trimList_eq_self (renderDMY_not_ws sep d m y hsep (by omega)
        (by omega) (by omega))]
    simp only [isoDateFromAny, if_neg hne, hnum, htrim]
    simp only [textAttempts,
      show (String.mk (renderDMY sep d m y)).data = renderDMY sep d m y
        from rfl]
    rw [fromISOdate_renderDMY sep d m y (by omega)]
    rcases hsep with rfl | rfl
    · rw [fromFormatDMY_renderDMY '-' d m y hd1 hd12 hm1 hm12 hy1 hy2]
      rfl
    · have hdash : fromFormatDayMonthYear '-' (renderDMY '/' d m y) = none := by
        simp only [renderDMY, fromFormatDayMonthYear]
        rw [if_neg]
        intro hcon
        exact absurd hcon.1 (by decide)
      rw [hdash, fromFormatDMY_renderDMY '/' d m y hd1 hd12 hm1 hm12 hy1 hy2]
      rfl

/-- Witness for claim C4's theorem: the ambiguous text "03/04/2024" parses
day-first to 3 April 2024, independent of the fallback parsers, and the
attempt-list equation holds on it. -/
theorem claim_c4_witness :
    isoDateFromAny (fun _ => none) (fun _ => none)
      (.str (String.mk (renderDMY '/' 3 4 2024))) = some ⟨2024, 4, 3⟩ ∧
    isoDateFromAny (fun _ => none) (fun _ => none) (.str "garbage") =
      firstSome (textAttempts (fun _ => none) (fun _ => none)
        (jsTrim "garbage")) := by
  refine ⟨claim_c4.2 _ _ '/' 3 4 2024 (Or.inr rfl) (by omega) (by omega)
    (by omega) (by omega) (by omega) (by omega), ?_⟩
  exact claim_c4.1 _ _ "garbage" (by decide) (by decide) (by decide)

/-- Claim C5: each date normalizer is a total function of its input (the
embeddings are total Lean functions, so no exception path exists) that
returns `null` exactly when none of the parse attempts it makes for that
input succeeds; concretely, garbage text yields `null` and a well-formed
date does not. -/
theorem claim_c5 :
    (∀ (gen : String → Option Date) (v : CellValue),
      SyncApi.parseDate gen v = none ↔
        ∀ r ∈ SyncApi.parseDateAttempts gen v, r = none) ∧
    (∀ s : String, IndexJs.parseDate s = none ↔
        ∀ r ∈ IndexJs.parseDateAttempts s, r = none) ∧
    IndexJs.parseDate "garbage" = none ∧
    IndexJs.parseDate "" = none ∧
    IndexJs.parseDate "15/06/2024" = some ⟨2024, 6, 15⟩ := by
  exact ⟨fun gen v => firstSome_eq_none _, fun s => firstSome_eq_none _,
    by decide, by decide, by decide⟩

theorem ensureColumns_ext (required : List String) (acc : List String × Bool) :
    ∃ ext : List String,
      (required.foldl
        (fun acc col => if col ∈ acc.1 then acc else (acc.1 ++ [col], true))
        acc).1 = acc.1 ++ ext := by
  induction required generalizing acc with
  | nil => exact ⟨[], by simp⟩
  | cons c cs ih =>
    simp only [List.foldl_cons]
    by_cases h : c ∈ acc.1
    · rw [if_pos h]; exact ih acc
    · rw [if_neg h]
      obtain ⟨ext, he⟩ := ih (acc.1 ++ [c], true)
      exact ⟨[c] ++ ext, by simp [he]⟩

theorem ensureColumns_mem (required : List String) :
    ∀ (acc : List String × Bool) (c : String), (c ∈ required ∨ c ∈ acc.1) →
      c ∈ (required.foldl
        (fun acc col => if col ∈ acc.1 then acc else (acc.1 ++ [col], true))
        acc).1 := by
  induction required with
  | nil =>
    intro acc c hc
    simpa using hc.resolve_left (by simp)
  | cons r rs ih =>
    intro acc c hc
    simp only [List.foldl_cons]
    by_cases h : r ∈ acc.1
    · rw [if_pos h]
      apply ih
      rcases hc with hc | hc
      · rcases List.mem_cons.mp hc with rfl | hc
        · exact Or.inr h
        · exact Or.inl hc
      · exact Or.inr hc
    · rw [if_neg h]
      apply ih
      rcases hc with hc | hc
      · rcases List.mem_cons.mp hc with rfl | hc
        · exact Or.inr (by simp)
        · exact Or.inl hc
      · exact Or.inr (by simp [hc])

theorem filter_orderedInsert (k : String) (a : List String)
    (l : List (List String)) :
    (List.orderedInsert rowLe a l).filter (fun r => rowKey r == k) =
      if rowKey a == k then a :: l.filter (fun r => rowKey r == k)
      else l.filter (fun r => rowKey r == k) := by
  induction l with
  | nil =>
    by_cases hak : rowKey a == k <;>
      simp [List.orderedInsert, List.filter, hak]
  | cons b l ih =>
    simp only [List.orderedInsert]
    by_cases hab : rowLe a b
    · rw [if_pos hab]
      by_cases hak : rowKey a == k <;>
        by_cases hbk : rowKey b == k <;>
        simp [List.filter_cons, hak, hbk]
    · rw [if_neg hab]
      have hlt : rowKey b < rowKey a := lt_of_not_le hab
      by_cases hak : rowKey a == k
      · have hbk : (rowKey b == k) = false := by
          have hk : rowKey a = k := by simpa using hak
          have : rowKey b ≠ k := by rw [← hk]; exact ne_of_lt hlt
          simpa using this
        simp [List.filter_cons, ih, hak, hbk]
      · simp [List.filter_cons, ih, hak]

theorem filter_sortReminders (k : String) (l : List (List String)) :
    (sortReminders l).filter (fun r => rowKey r == k) =
      l.filter (fun r => rowKey r == k) := by
  induction l with
  | nil => rfl
  | cons a l ih =>
    simp only [sortReminders, List.insertionSort] at ih ⊢
    rw [filter_orderedInsert]
    by_cases hak : rowKey a == k <;> simp [List.filter_cons, hak, ih]

/- ### Claim theorems C6, C7 and C9 -/

/-- Claim C6: the sorted presentation projection is ordered by the
case-insensitive name key; ties keep the original row order (for every key,
filtering the sorted list gives exactly the original-order rows of that
key, which is stability); and sorting an already-sorted list changes
nothing, so the sort is idempotent. -/
theorem claim_c6 :
    ∀ rows : List (List String),
      List.Sorted rowLe (sortReminders rows) ∧
      (∀ k : String, (sortReminders rows).filter (fun r => rowKey r == k) =
        rows.filter (fun r => rowKey r == k)) ∧
      sortReminders (sortReminders rows) = sortReminders rows := by
  intro rows
  refine ⟨List.sorted_insertionSort rowLe rows,
    fun k => filter_sortReminders k rows, ?_⟩
  exact List.Sorted.insertionSort_eq (List.sorted_insertionSort rowLe rows)

/-- Claim C7: appending the missing required (derived) columns leaves every
existing header cell in place (the old header is literally the front of the
new one), keeps the resolved column index of every already-present field
unchanged, and ends with every required column present. -/
theorem claim_c7 :
    ∀ header required : List String,
      (ensureColumns header required).1.take header.length = header ∧
      (∀ c ∈ header, (ensureColumns header required).1.indexOf c =
        header.indexOf c) ∧
      (∀ c ∈ required, c ∈ (ensureColumns header required).1) := by
  intro header required
  obtain ⟨ext, he⟩ := ensureColumns_ext required (header, false)
  refine ⟨?_, ?_, ?_⟩
  · rw [show (ensureColumns header required).1 = header ++ ext from he,
      List.take_left]
  · intro c hc
    rw [show (ensureColumns header required).1 = header ++ ext from he,
      List.indexOf_append_of_mem hc]
  · intro c hc
    exact ensureColumns_mem required (header, false) c (Or.inl hc)

/-- Witness for claim C7's theorem: appending the derived columns to a
two-column header keeps cell 0/1 and the index of "Email", and adds
"Next Reminder Date" at the end. -/
theorem claim_c7_witness :
    (ensureColumns ["Name", "Email"] ["Name", "Next Reminder Date"]).1.take 2 =
      ["Name", "Email"] ∧
    (ensureColumns ["Name", "Email"] ["Name", "Next Reminder Date"]).1.indexOf
      "Email" = (["Name", "Email"] : List String).indexOf "Email" ∧
    "Next Reminder Date" ∈
      (ensureColumns ["Name", "Email"] ["Name", "Next Reminder Date"]).1 := by
  have h := claim_c7 ["Name", "Email"] ["Name", "Next Reminder Date"]
  exact ⟨h.1, h.2.1 "Email" (by decide), h.2.2 "Next Reminder Date" (by decide)⟩

/-- Claim C9: a reconciled record's `Manual Contact` flag is
"MISSING CONTACT" exactly when both the email and the phone cell are blank
after trimming, whatever every other field holds; otherwise it is blank. -/
theorem claim_c9 :
    ∀ name veh email phone lastVisit status lastEmailSent emailType
        subscription : String,
      ((processCustomerRow name veh email phone lastVisit status
          lastEmailSent emailType subscription).manualContact =
        "MISSING CONTACT" ↔ (jsTrim email = "" ∧ jsTrim phone = "")) ∧
      ((processCustomerRow name veh email phone lastVisit status
          lastEmailSent emailType subscription).manualContact = "" ↔
        ¬(jsTrim email = "" ∧ jsTrim phone = "")) := by
  intro name veh email phone lastVisit status lastEmailSent emailType
    subscription
  by_cases h : jsTrim email = "" ∧ jsTrim phone = "" <;>
    simp [processCustomerRow, h,
      (show ("MISSING CONTACT" : String) ≠ "" by decide)]

/- ### Loop invariants -/

theorem runLoop_failures (dec : Customer → Option EmailType)
    (upd : Customer → EmailType → Customer) (msg : Customer → String)
    (oracle : Nat → Bool) :
    ∀ (i : Nat) (cs : List Customer),
      (runLoop dec upd msg oracle i cs).failures.length =
        (runLoop dec upd msg oracle i cs).failed := by
  intro i cs
  induction cs generalizing i with
  | nil => rfl
  | cons c rest ih =>
    simp only [runLoop]
    cases hdec : dec c <;> dsimp only
    · exact ih (i + 1)
    · by_cases ho : oracle i <;> simp [ho, ih (i + 1)]

theorem runLoop_sent_failed (dec : Customer → Option EmailType)
    (upd : Customer → EmailType → Customer) (msg : Customer → String)
    (oracle : Nat → Bool) :
    ∀ (i : Nat) (cs : List Customer),
      (runLoop dec upd msg oracle i cs).sent +
        (runLoop dec upd msg oracle i cs).failed =
        (runLoop dec upd msg oracle i cs).attempts.length := by
  intro i cs
  induction cs generalizing i with
  | nil => rfl
  | cons c rest ih =>
    simp only [runLoop]
    cases hdec : dec c <;> dsimp only
    · exact ih (i + 1)
    · by_cases ho : oracle i <;> simp [ho] <;>
        · have h := ih (i + 1)
          omega

theorem runLoop_att_le (dec : Customer → Option EmailType)
    (upd : Customer → EmailType → Customer) (msg : Customer → String)
    (oracle : Nat → Bool) :
    ∀ (i : Nat) (cs : List Customer),
      (runLoop dec upd msg oracle i cs).attempts.length ≤ cs.length := by
  intro i cs
  induction cs generalizing i with
  | nil => simp [runLoop]
  | cons c rest ih =>
    simp only [runLoop]
    cases hdec : dec c <;> dsimp only
    · have h := ih (i + 1)
      simp only [List.length_cons]
      omega
    · by_cases ho : oracle i <;> simp [ho] <;>
        · have h := ih (i + 1)
          omega

theorem runLoop_att_ge (dec : Customer → Option EmailType)
    (upd : Customer → EmailType → Customer) (msg : Customer → String)
    (oracle : Nat → Bool) :
    ∀ (i : Nat) (cs : List Customer) (j : Nat) (t : EmailType),
      (j, t) ∈ (runLoop dec upd msg oracle i cs).attempts → i ≤ j := by
  intro i cs
  induction cs generalizing i with
  | nil => intro j t h; simp [runLoop] at h
  | cons c rest ih =>
    intro j t h
    simp only [runLoop] at h
    rcases hdec : dec c with _ | t0 <;> rw [hdec] at h <;> dsimp only at h
    · exact le_trans (by omega) (ih (i + 1) j t h)
    · split at h <;>
        (dsimp only at h
         rcases List.mem_cons.mp h with heq | hrest
         · injection heq with h1 h2
           omega
         · exact le_trans (by omega) (ih (i + 1) j t hrest))

theorem runLoop_nodup (dec : Customer → Option EmailType)
    (upd : Customer → EmailType → Customer) (msg : Customer → String)
    (oracle : Nat → Bool) :
    ∀ (i : Nat) (cs : List Customer),
      ((runLoop dec upd msg oracle i cs).attempts.map Prod.fst).Nodup := by
  intro i cs
  induction cs generalizing i with
  | nil => simp [runLoop]
  | cons c rest ih =>
    have hnm : i ∉ ((runLoop dec upd msg oracle (i + 1) rest).attempts.map
        Prod.fst) := by
      intro hmem
      obtain ⟨⟨j, t'⟩, hjt, hj⟩ := List.mem_map.mp hmem
      have hge := runLoop_att_ge dec upd msg oracle (i + 1) rest j t' hjt
      dsimp only at hj
      omega
    simp only [runLoop]
    cases hdec : dec c <;> dsimp only
    · exact ih (i + 1)
    · by_cases ho : oracle i <;>
        simp [ho, List.nodup_cons, hnm, ih (i + 1)]

theorem runLoop_att_iff (dec : Customer → Option EmailType)
    (upd : Customer → EmailType → Customer) (msg : Customer → String)
    (oracle : Nat → Bool) :
    ∀ (i : Nat) (cs : List Customer) (j : Nat) (t : EmailType),
      ((j, t) ∈ (runLoop dec upd msg oracle i cs).attempts ↔
        ∃ c, cs[j - i]? = some c ∧ i ≤ j ∧ dec c = some t) := by
  intro i cs
  induction cs generalizing i with
  | nil => intro j t; simp [runLoop]
  | cons c rest ih =>
    intro j t
    constructor
    · intro h
      simp only [runLoop] at h
      rcases hdec : dec c with _ | t0 <;> rw [hdec] at h <;> dsimp only at h
      · obtain ⟨c', hc', hij, hd⟩ := (ih (i + 1) j t).mp h
        refine ⟨c', ?_, by omega, hd⟩
        rw [show j - i = (j - (i + 1)) + 1 by omega]
        simpa using hc'
      · split at h <;>
          (dsimp only at h
           rcases List.mem_cons.mp h with heq | hrest
           · injection heq with h1 h2
             subst h1
             subst h2
             exact ⟨c, by simp, by omega, hdec⟩
           · obtain ⟨c', hc', hij, hd⟩ := (ih (i + 1) j t).mp hrest
             refine ⟨c', ?_, by omega, hd⟩
             rw [show j - i = (j - (i + 1)) + 1 by omega]
             simpa using hc')
    · rintro ⟨c', hc', hij, hd⟩
      simp only [runLoop]
      by_cases hji : j = i
      · subst hji
        rw [Nat.sub_self] at hc'
        simp only [List.getElem?_cons_zero, Option.some.injEq] at hc'
        subst hc'
        rw [hd]
        dsimp only
        by_cases ho : oracle j <;> simp [ho]
      · have hj1 : i + 1 ≤ j := by omega
        have hr : rest[j - (i + 1)]? = some c' := by
          rw [show j - i = (j - (i + 1)) + 1 by omega] at hc'
          simpa using hc'
        have hmem := (ih (i + 1) j t).mpr ⟨c', hr, hj1, hd⟩
        cases hdec : dec c <;> dsimp only
        · exact hmem
        · by_cases ho : oracle i <;> simp [ho, List.mem_cons, hmem]

theorem runLoop_updated_getElem (dec : Customer → Option EmailType)
    (upd : Customer → EmailType → Customer) (msg : Customer → String)
    (oracle : Nat → Bool) :
    ∀ (i : Nat) (cs : List Customer) (j : Nat),
      (runLoop dec upd msg oracle i cs).updated[j]? =
        (cs[j]?).map (fun c =>
          match dec c with
          | some t => if oracle (i + j) then upd c t else c
          | none => c) := by
  intro i cs
  induction cs generalizing i with
  | nil => intro j; simp [runLoop]
  | cons c rest ih =>
    intro j
    simp only [runLoop]
    rcases hdec : dec c with _ | t0 <;> dsimp only
    · cases j with
      | zero => simp [hdec]
      | succ j =>
        simp only [List.getElem?_cons_succ]
        rw [ih (i + 1) j, show i + 1 + j = i + (j + 1) by omega]
    · cases j with
      | zero => by_cases ho : oracle i <;> simp [hdec, ho]
      | succ j =>
        rw [List.getElem?_cons_succ]
        split <;>
          (dsimp only
           rw [List.getElem?_cons_succ, ih (i + 1) j,
             show i + 1 + j = i + (j + 1) by omega])

theorem runLoop_updated (dec : Customer → Option EmailType)
    (upd : Customer → EmailType → Customer) (msg : Customer → String)
    (oracle : Nat → Bool) :
    ∀ (i : Nat) (cs : List Customer),
      (runLoop dec upd msg oracle i cs).updated =
        (cs.enumFrom i).map (fun p =>
          match dec p.2 with
          | some t => if oracle p.1 then upd p.2 t else p.2
          | none => p.2) := by
  intro i cs
  induction cs generalizing i with
  | nil => rfl
  | cons c rest ih =>
    simp only [runLoop, List.enumFrom, List.map_cons]
    rcases hdec : dec c with _ | t0 <;> dsimp only
    · rw [ih (i + 1)]
    · by_cases ho : oracle i <;> simp [ho, ih (i + 1)]

/- ### Decision-level lemmas -/

theorem reminderDecision_guard (today : Date) (c : Customer) (t : EmailType)
    (h : SyncApi.reminderDecision today c = some t) :
    ¬(c.lastEmailSent = isoString today ∧ c.emailType = emailTypeStr t) := by
  unfold SyncApi.reminderDecision at h
  split_ifs at h with h1 h2 h3 h4
  rcases hp : IndexJs.parseDate c.nextReminderDate with _ | nrd <;>
    rw [hp] at h <;> dsimp only at h
  · exact absurd h (by simp)
  · rcases hc : classifyTier (rataDie nrd - rataDie today) with _ | t' <;>
      rw [hc] at h <;> dsimp only at h
    · exact absurd h (by simp)
    · by_cases hg : c.lastEmailSent = isoString today ∧
          c.emailType = emailTypeStr t'
      · rw [if_pos hg] at h
        exact absurd h (by simp)
      · rw [if_neg hg] at h
        injection h with ht
        subst ht
        exact hg

theorem reminderDecision_unsub (today : Date) (c : Customer)
    (h : jsToUpper (jsTrim c.subscription) = "NOT SUBSCRIBED" ∨
      jsToUpper (jsTrim c.subscription) = "UNSUBSCRIBED") :
    SyncApi.reminderDecision today c = none := by
  unfold SyncApi.reminderDecision
  rw [if_pos h]

theorem reminderDecision_tracked (today : Date) (c : Customer) (t : EmailType)
    (h : SyncApi.reminderDecision today c = some t) :
    SyncApi.reminderDecision today (SyncApi.applyTracking today c t) = none := by
  unfold SyncApi.reminderDecision at h ⊢
  unfold SyncApi.applyTracking
  dsimp only at h ⊢
  split_ifs at h ⊢ with h1 h2 h3 h4
  generalize IndexJs.parseDate c.nextReminderDate = pres at h ⊢
  rcases pres with _ | nrd
  · exact absurd h (by simp)
  · dsimp only at h ⊢
    generalize classifyTier (rataDie nrd - rataDie today) = cres at h ⊢
    rcases cres with _ | t'
    · exact absurd h (by simp)
    · dsimp only at h ⊢
      by_cases hg : c.lastEmailSent = isoString today ∧
          c.emailType = emailTypeStr t'
      · rw [if_pos hg] at h
        exact absurd h (by simp)
      · rw [if_neg hg] at h
        injection h with ht
        subst ht
        simp

/- ### Claim theorems C1, C8 and C10 -/

/-- Claim C1: a tier-`T` notification is attempted only when NOT (last
notified today with the same tier `T`); after a run each customer is
returned unchanged except that a successful attempt sets exactly the
last-notified date to today and the last-notified tier to its tier; and on
the same day a second run never re-attempts a customer whose first attempt
succeeded, while a customer whose first attempt failed is attempted again
with the same tier. -/
theorem claim_c1 :
    (∀ (today : Date) (c : Customer) (t : EmailType),
      SyncApi.reminderDecision today c = some t →
        ¬(c.lastEmailSent = isoString today ∧
          c.emailType = emailTypeStr t)) ∧
    (∀ (today : Date) (oracle : Nat → Bool) (cs : List Customer),
      (SyncApi.sendReminders today oracle cs).updated =
        cs.enum.map (fun p =>
          match SyncApi.reminderDecision today p.2 with
          | some t => if oracle p.1 then SyncApi.applyTracking today p.2 t
            else p.2
          | none => p.2)) ∧
    (∀ (today : Date) (o1 o2 : Nat → Bool) (cs : List Customer) (i : Nat)
        (t : EmailType),
      (i, t) ∈ (SyncApi.sendReminders today o1 cs).attempts →
      o1 i = true →
      ∀ t2 : EmailType, (i, t2) ∉ (SyncApi.sendReminders today o2
        (SyncApi.sendReminders today o1 cs).updated).attempts) ∧
    (∀ (today : Date) (o1 o2 : Nat → Bool) (cs : List Customer) (i : Nat)
        (t : EmailType),
      (i, t) ∈ (SyncApi.sendReminders today o1 cs).attempts →
      o1 i = false →
      (i, t) ∈ (SyncApi.sendReminders today o2
        (SyncApi.sendReminders today o1 cs).updated).attempts) := by
  refine ⟨reminderDecision_guard, ?_, ?_, ?_⟩
  · intro today oracle cs
    unfold SyncApi.sendReminders
    rw [runLoop_updated]
    rfl
  · intro today o1 o2 cs i t hmem ho1 t2 hmem2
    unfold SyncApi.sendReminders at hmem hmem2
    obtain ⟨c, hc, -, hdec⟩ :=
      (runLoop_att_iff (SyncApi.reminderDecision today)
        (SyncApi.applyTracking today) SyncApi.failureMsg o1 0 cs i t).mp hmem
    rw [Nat.sub_zero] at hc
    obtain ⟨c', hc', -, hdec2⟩ :=
      (runLoop_att_iff (SyncApi.reminderDecision today)
        (SyncApi.applyTracking today) SyncApi.failureMsg o2 0 _ i t2).mp hmem2
    rw [Nat.sub_zero, runLoop_updated_getElem, hc] at hc'
    simp only [Option.map_some', hdec, Nat.zero_add, ho1, if_true,
      Option.some.injEq] at hc'
    rw [← hc'] at hdec2
    rw [reminderDecision_tracked today c t hdec] at hdec2
    exact absurd hdec2 (by simp)
  · intro today o1 o2 cs i t hmem ho1
    unfold SyncApi.sendReminders at hmem ⊢
    obtain ⟨c, hc, -, hdec⟩ :=
      (runLoop_att_iff (SyncApi.reminderDecision today)
        (SyncApi.applyTracking today) SyncApi.failureMsg o1 0 cs i t).mp hmem
    rw [Nat.sub_zero] at hc
    apply (runLoop_att_iff (SyncApi.reminderDecision today)
      (SyncApi.applyTracking today) SyncApi.failureMsg o2 0 _ i t).mpr
    refine ⟨c, ?_, by omega, hdec⟩
    rw [Nat.sub_zero, runLoop_updated_getElem, hc]
    simp [hdec, ho1]

/-- Witness for claim C1's theorem: with today = 2024-06-10, a customer due
2024-06-15 whose send succeeds is not re-attempted by a same-day second
run, while a customer overdue since 2024-06-01 whose send failed is
re-attempted. -/
theorem claim_c1_witness :
    (0, EmailType.ADVANCE_7DAY) ∉ (SyncApi.sendReminders ⟨2024, 6, 10⟩
      (fun _ => true) ((SyncApi.sendReminders ⟨2024, 6, 10⟩ (fun i => i == 0)
        [⟨"Ada", "AB123", "ada@x.com", "1", "2024-03-15", "2024-06-15", "",
          "", "", "", ""⟩,
         ⟨"Bob", "XY9", "bob@x.com", "2", "2024-03-01", "2024-06-01", "",
          "", "", "", ""⟩]).updated)).attempts ∧
    (1, EmailType.OVERDUE) ∈ (SyncApi.sendReminders ⟨2024, 6, 10⟩
      (fun _ => true) ((SyncApi.sendReminders ⟨2024, 6, 10⟩ (fun i => i == 0)
        [⟨"Ada", "AB123", "ada@x.com", "1", "2024-03-15", "2024-06-15", "",
          "", "", "", ""⟩,
         ⟨"Bob", "XY9", "bob@x.com", "2", "2024-03-01", "2024-06-01", "",
          "", "", "", ""⟩]).updated)).attempts := by
  constructor
  · exact claim_c1.2.2.1 ⟨2024, 6, 10⟩ (fun i => i == 0) (fun _ => true)
      [⟨"Ada", "AB123", "ada@x.com", "1", "2024-03-15", "2024-06-15", "",
        "", "", "", ""⟩,
       ⟨"Bob", "XY9", "bob@x.com", "2", "2024-03-01", "2024-06-01", "",
        "", "", "", ""⟩] 0 .ADVANCE_7DAY (by decide) (by decide)
      .ADVANCE_7DAY
  · exact claim_c1.2.2.2 ⟨2024, 6, 10⟩ (fun i => i == 0) (fun _ => true)
      [⟨"Ada", "AB123", "ada@x.com", "1", "2024-03-15", "2024-06-15", "",
        "", "", "", ""⟩,
       ⟨"Bob", "XY9", "bob@x.com", "2", "2024-03-01", "2024-06-01", "",
        "", "", "", ""⟩] 1 .OVERDUE (by decide) (by decide)

/-- Claim C8: a customer whose subscription status reads (case- and
whitespace-insensitively) "NOT SUBSCRIBED" or "UNSUBSCRIBED" is never the
subject of a send attempt, in any run, on any day, with any transport
behaviour and whatever tier its dates would give it. -/
theorem claim_c8 :
    ∀ (today : Date) (oracle : Nat → Bool) (cs : List Customer) (i : Nat)
      (c : Customer) (t : EmailType),
      cs[i]? = some c →
      (jsToUpper (jsTrim c.subscription) = "NOT SUBSCRIBED" ∨
        jsToUpper (jsTrim c.subscription) = "UNSUBSCRIBED") →
      (i, t) ∉ (SyncApi.sendReminders today oracle cs).attempts := by
  intro today oracle cs i c t hc hsub hmem
  unfold SyncApi.sendReminders at hmem
  obtain ⟨c', hc', -, hdec⟩ :=
    (runLoop_att_iff (SyncApi.reminderDecision today)
      (SyncApi.applyTracking today) SyncApi.failureMsg oracle 0 cs i t).mp hmem
  rw [Nat.sub_zero, hc] at hc'
  injection hc' with hc''
  subst hc''
  rw [reminderDecision_unsub today c hsub] at hdec
  exact absurd hdec (by simp)

/-- Witness for claim C8's theorem: an unsubscribed customer with an
overdue date is not attempted. -/
theorem claim_c8_witness :
    (0, EmailType.OVERDUE) ∉ (SyncApi.sendReminders ⟨2024, 6, 10⟩
      (fun _ => true) [⟨"Bob", "XY9", "bob@x.com", "2", "2024-01-01",
        "2024-04-01", "", "", "", "", "UNSUBSCRIBED"⟩]).attempts := by
  exact claim_c8 ⟨2024, 6, 10⟩ (fun _ => true) _ 0
    ⟨"Bob", "XY9", "bob@x.com", "2", "2024-01-01", "2024-04-01", "", "", "",
      "", "UNSUBSCRIBED"⟩ .OVERDUE (by decide) (by decide)

/-- Claim C10: in one run of either `sendReminders` variant, each customer
position is attempted at most once (the attempt positions are distinct),
the summary satisfies sent + failed ≤ number of customers, and the failures
list carries exactly `failed` entries. -/
theorem claim_c10 :
    ∀ (today : Date) (oracle : Nat → Bool) (cs : List Customer),
      (((SyncApi.sendReminders today oracle cs).attempts.map
          Prod.fst).Nodup ∧
        (SyncApi.sendReminders today oracle cs).sent +
          (SyncApi.sendReminders today oracle cs).failed ≤ cs.length ∧
        (SyncApi.sendReminders today oracle cs).failures.length =
          (SyncApi.sendReminders today oracle cs).failed) ∧
      (((IndexJs.sendReminders today oracle cs).attempts.map
          Prod.fst).Nodup ∧
        (IndexJs.sendReminders today oracle cs).sent +
          (IndexJs.sendReminders today oracle cs).failed ≤ cs.length ∧
        (IndexJs.sendReminders today oracle cs).failures.length =
          (IndexJs.sendReminders today oracle cs).failed) := by
  intro today oracle cs
  unfold SyncApi.sendReminders IndexJs.sendReminders
  refine ⟨⟨runLoop_nodup _ _ _ _ 0 cs, ?_, runLoop_failures _ _ _ _ 0 cs⟩,
    ⟨runLoop_nodup _ _ _ _ 0 cs, ?_, runLoop_failures _ _ _ _ 0 cs⟩⟩
  · have h1 := runLoop_sent_failed (SyncApi.reminderDecision today)
      (SyncApi.applyTracking today) SyncApi.failureMsg oracle 0 cs
    have h2 := runLoop_att_le (SyncApi.reminderDecision today)
      (SyncApi.applyTracking today) SyncApi.failureMsg oracle 0 cs
    omega
  · have h1 := runLoop_sent_failed (IndexJs.reminderDecision today)
      (fun c _ => c) IndexJs.failureMsg oracle 0 cs
    have h2 := runLoop_att_le (IndexJs.reminderDecision today)
      (fun c _ => c) IndexJs.failureMsg oracle 0 cs
    omega

end RGAC
